import Mathlib

/-!
Shallow embedding of `src/expiry_symbol_dispatcher.py` (the daily expiry
dispatcher).  The script filters an instrument master table to the rows of a
configured index, parses the `Expiry` column in `%d-%b-%Y` format (coercing
failures to NaT and dropping them), picks the minimum expiry on or after
`TODAY`, and — when that expiry equals `TODAY` or the `FORCE_EXPIRY_TODAY`
override is set — serializes the matching rows to a named CSV text file and
bundles them for Telegram delivery.

A pandas `DataFrame` is embedded as a rectangular table: a list of column
labels plus a list of rows, each row a list of cells.  A cell is a string, a
parsed timestamp (normalized to a calendar date: every timestamp the script
builds is midnight Asia/Kolkata, so `.normalize()` is the identity here and
timezone localization is uniform and dropped), or NaT (`Cell.na`).
-/

/-- A calendar date (all timestamps in the script are tz-normalized midnights,
so year/month/day is the whole state). -/
structure Date where
  year : Nat
  month : Nat
  day : Nat
deriving DecidableEq, Repr

/-- One cell of a DataFrame: a string, a parsed timestamp, or NaT. -/
inductive Cell where
  | str : String → Cell
  | date : Date → Cell
  | na : Cell
deriving DecidableEq, Repr

/-- A rectangular table: column labels plus rows of cells. -/
structure DataFrame where
  cols : List String
  rows : List (List Cell)
deriving DecidableEq, Repr

/-- Rectangularity: every row has exactly one cell per column (pandas
guarantees this for any real DataFrame). -/
def DataFrame.Wf (df : DataFrame) : Prop :=
  ∀ r ∈ df.rows, r.length = df.cols.length

instance (df : DataFrame) : Decidable df.Wf := by
  unfold DataFrame.Wf; infer_instance

/-- One entry of `INDEX_CONFIG`. -/
structure IndexConfig where
  name : String
  symbol : String
  instrument : String
  exchange : String
  type : String
deriving DecidableEq, Repr

/-- Chronological order on dates (timestamps compare chronologically;
all are midnights in one timezone, so this is lexicographic y/m/d). -/
def dateLE (a b : Date) : Bool :=
  decide (a.year < b.year ∨ (a.year = b.year ∧
    (a.month < b.month ∨ (a.month = b.month ∧ a.day ≤ b.day))))

/-- Cell lookup by column label (`row[c]`): the cell in the position of the
first column named `c`, NaT when the label is absent. -/
def getCell : List String → List Cell → String → Cell
  | [], _, _ => Cell.na
  | _ :: _, [], _ => Cell.na
  | col :: cols, x :: r, c => if col == c then x else getCell cols r c

/-- Column labels after `df[c] = ...`: unchanged when `c` already exists,
appended otherwise. -/
def setCols : List String → String → List String
  | [], c => [c]
  | col :: cols, c => if col == c then col :: cols else col :: setCols cols c

/-- One row after `df[c] = ...`: the cell under the first column named `c` is
replaced, or the new cell is appended when no column is named `c`. -/
def setRow : List String → List Cell → String → Cell → List Cell
  | [], r, _, v => r ++ [v]
  | _ :: _, [], _, _ => []
  | col :: cols, x :: r, c, v =>
      if col == c then v :: r else x :: setRow cols r c v

/-- One row restricted to the columns satisfying `keep`
(`df.drop(columns=...)` / boolean column selection). -/
def selectRow : List String → (String → Bool) → List Cell → List Cell
  | [], _, _ => []
  | _ :: _, _, [] => []
  | col :: cols, keep, x :: r =>
      if keep col then x :: selectRow cols keep r else selectRow cols keep r

/-- A DataFrame restricted to the columns satisfying `keep`. -/
def selectColsDF (df : DataFrame) (keep : String → Bool) : DataFrame :=
  ⟨df.cols.filter keep, df.rows.map (selectRow df.cols keep)⟩

/-- Leap-year rule of the Gregorian calendar (as in pandas date validation). -/
def isLeap (y : Nat) : Bool :=
  (y % 4 == 0 && y % 100 != 0) || y % 400 == 0

/-- Number of days in a month, for validity checking of parsed dates. -/
def daysInMonth (y m : Nat) : Nat :=
  if m == 2 then (if isLeap y then 29 else 28)
  else if m == 4 || m == 6 || m == 9 || m == 11 then 30
  else 31

/-- ASCII uppercasing of one character (`str.upper()` on the data in play). -/
def charUpper (c : Char) : Char :=
  if 97 ≤ c.toNat && c.toNat ≤ 122 then Char.ofNat (c.toNat - 32) else c

/-- ASCII lowercasing of one character (`str.lower()` on the data in play). -/
def charLower (c : Char) : Char :=
  if 65 ≤ c.toNat && c.toNat ≤ 90 then Char.ofNat (c.toNat + 32) else c

/-- `str.upper()`. -/
def strUpper (s : String) : String := ⟨s.data.map charUpper⟩

/-- `str.lower()`. -/
def strLower (s : String) : String := ⟨s.data.map charLower⟩

/-- Splitting a character list at every occurrence of a separator character
(the behavior of `str.split`/`splitOn` for a one-character separator). -/
def splitOnChar (c : Char) : List Char → List (List Char)
  | [] => [[]]
  | x :: xs =>
    match splitOnChar c xs with
    | [] => if x == c then [[], []] else [[x]]
    | y :: ys => if x == c then [] :: y :: ys else (x :: y) :: ys

/-- ASCII decimal digit test. -/
def isDigitChar (c : Char) : Bool :=
  48 ≤ c.toNat && c.toNat ≤ 57

/-- Numeric value of an ASCII digit. -/
def digitVal (c : Char) : Nat := c.toNat - 48

/-- Decimal value of a digit string. -/
def digitsToNat (l : List Char) : Nat :=
  l.foldl (fun a c => a * 10 + digitVal c) 0

/-- Decimal parse of a field: some value exactly when the field is a
nonempty run of digits. -/
def digitsToNat? (l : List Char) : Option Nat :=
  if !(l.isEmpty) && l.all isDigitChar then some (digitsToNat l) else none

/-- `%b`: case-insensitive three-letter English month abbreviation. -/
def monthOfAbbr (l : List Char) : Option Nat :=
  match l.map charUpper with
  | ['J', 'A', 'N'] => some 1
  | ['F', 'E', 'B'] => some 2
  | ['M', 'A', 'R'] => some 3
  | ['A', 'P', 'R'] => some 4
  | ['M', 'A', 'Y'] => some 5
  | ['J', 'U', 'N'] => some 6
  | ['J', 'U', 'L'] => some 7
  | ['A', 'U', 'G'] => some 8
  | ['S', 'E', 'P'] => some 9
  | ['O', 'C', 'T'] => some 10
  | ['N', 'O', 'V'] => some 11
  | ['D', 'E', 'C'] => some 12
  | _ => none

/-- `pd.to_datetime(s, format="%d-%b-%Y")` on one string: day (one or two
digits), dash, abbreviated month, dash, year; the day must be valid for the
month.  `none` models NaT under `errors="coerce"`. -/
def parseDate (s : String) : Option Date :=
  match splitOnChar ('-') s.data with
  | [ds, ms, ys] =>
    match digitsToNat? ds, monthOfAbbr ms, digitsToNat? ys with
    | some d, some m, some y =>
        if 1 ≤ d && d ≤ daysInMonth y m && ds.length ≤ 2 then
          some ⟨y, m, d⟩
        else none
    | _, _, _ => none
  | _ => none

/-- Parsing applied to a cell of the `Expiry` column: non-strings and
unparsable strings coerce to NaT. -/
def parseExpiryCell : Cell → Cell
  | Cell.str s =>
      match parseDate s with
      | some d => Cell.date d
      | none => Cell.na
  | _ => Cell.na

/-- The date held by a cell, when it holds one. -/
def cellDate : Cell → Option Date
  | Cell.date d => some d
  | _ => none

/-- `cell >= today` on an `Expiry_dt` cell: false on NaT (as in pandas). -/
def cellDateGE (c : Cell) (t : Date) : Bool :=
  match c with
  | Cell.date d => dateLE t d
  | _ => false

/-- The row predicate of line 58-61:
`(df["Symbol"] == cfg["symbol"]) & (df["Instrument"] == cfg["instrument"])`. -/
def matchesCfg (cols : List String) (cfg : IndexConfig) (r : List Cell) : Bool :=
  getCell cols r ("Symbol") == Cell.str cfg.symbol &&
    getCell cols r ("Instrument") == Cell.str cfg.instrument

/-- The symbol/instrument-filtered rows (line 58-61). -/
def matchedRows (df : DataFrame) (cfg : IndexConfig) : List (List Cell) :=
  df.rows.filter (fun r => matchesCfg df.cols cfg r)

/-- One row after line 66-68:
`df["Expiry_dt"] = pd.to_datetime(df["Expiry"], format="%d-%b-%Y",
errors="coerce")` (the tz-localization adds no information here, every
parsed value being a midnight in the one fixed timezone). -/
def augRow (cols : List String) (r : List Cell) : List Cell :=
  setRow cols r ("Expiry_dt") (parseExpiryCell (getCell cols r ("Expiry")))

/-- `series.min()` on a list of dates: `none` only on the empty list. -/
def minD (a b : Date) : Date := if dateLE b a then b else a

/-- Minimum of a date column. -/
def minDateList : List Date → Option Date
  | [] => none
  | d :: ds => some (ds.foldl minD d)

/-- `get_expiry_for_index(df, cfg)` (lines 57-84), with the module global
`TODAY` passed explicitly.  Returns `none` for the Python `(None, None)`;
`expiry.normalize()` is the identity on the dates built here. -/
def get_expiry_for_index (df : DataFrame) (cfg : IndexConfig) (today : Date) :
    Option (Date × DataFrame) :=
  let rowsM := df.rows.filter (fun r => matchesCfg df.cols cfg r)
  if rowsM.isEmpty then none
  else
    let cols2 := setCols df.cols ("Expiry_dt")
    let rows2 := rowsM.map (fun r => augRow df.cols r)
    let rows3 := rows2.filter (fun r => !(getCell cols2 r ("Expiry_dt") == Cell.na))
    if cfg.type == ("WEEKLY") then
      let future := rows3.filter (fun r => cellDateGE (getCell cols2 r ("Expiry_dt")) today)
      if future.isEmpty then none
      else
        match minDateList (future.filterMap (fun r => cellDate (getCell cols2 r ("Expiry_dt")))) with
        | none => none
        | some expiry => some (expiry, ⟨cols2, rows3⟩)
    else
      let future := rows3.filter (fun r => cellDateGE (getCell cols2 r ("Expiry_dt")) today)
      if future.isEmpty then none
      else
        match minDateList (future.filterMap (fun r => cellDate (getCell cols2 r ("Expiry_dt")))) with
        | none => none
        | some expiry => some (expiry, ⟨cols2, rows3⟩)

/-- Two-digit zero-padded field of `strftime` (`%d`). -/
def pad2 (n : Nat) : String :=
  if n < 10 then "0" ++ toString n else toString n

/-- Four-digit zero-padded field of `strftime` (`%Y`). -/
def pad4 (n : Nat) : String :=
  if n < 10 then "000" ++ toString n
  else if n < 100 then "00" ++ toString n
  else if n < 1000 then "0" ++ toString n
  else toString n

/-- `strftime("%b")`: capitalized three-letter month abbreviation. -/
def monthAbbr : Nat → String
  | 1 => "Jan"
  | 2 => "Feb"
  | 3 => "Mar"
  | 4 => "Apr"
  | 5 => "May"
  | 6 => "Jun"
  | 7 => "Jul"
  | 8 => "Aug"
  | 9 => "Sep"
  | 10 => "Oct"
  | 11 => "Nov"
  | 12 => "Dec"
  | _ => ""

/-- `ts.strftime("%d-%b-%Y")`. -/
def formatDate (d : Date) : String :=
  pad2 d.day ++ "-" ++ monthAbbr d.month ++ "-" ++ pad4 d.year

/-- Rendering of a cell by `to_csv`; in the script only string cells ever
reach serialization (the one timestamp column is dropped first), so the
timestamp rendering is never exercised by the pipeline. -/
def csvCell : Cell → String
  | Cell.str s => s
  | Cell.date d => pad4 d.year ++ "-" ++ pad2 d.month ++ "-" ++ pad2 d.day
  | Cell.na => ""

/-- pandas minimal quoting: quote a field containing the separator, the
quote character, or a line break. -/
def needsQuote (s : String) : Bool :=
  s.data.any (fun ch => ch == ',' || ch == '"' || ch == '\n' || ch == '\r')

/-- Quote characters doubled, as the CSV writer emits them inside a quoted
field. -/
def escapeQuotes : List Char → List Char
  | [] => []
  | c :: cs =>
      if c == '"' then '"' :: '"' :: escapeQuotes cs else c :: escapeQuotes cs

/-- A CSV field under minimal quoting, quote characters doubled. -/
def csvEscape (s : String) : String :=
  if needsQuote s then "\"" ++ (⟨escapeQuotes s.data⟩ : String) ++ "\"" else s

/-- One CSV line with the default `\n` terminator. -/
def csvLine (cells : List String) : String :=
  String.intercalate (",") cells ++ "\n"

/-- `df.to_csv(index=False)`: the header line from the column labels, then
one line per row; no positional index column is emitted. -/
def to_csv (df : DataFrame) : String :=
  csvLine (df.cols.map csvEscape) ++
    String.join (df.rows.map (fun r => csvLine (r.map (fun c => csvEscape (csvCell c)))))

/-- Whether the first list is a leading segment of the second
(`str.startswith`). -/
def listIsLeading : List Char → List Char → Bool
  | [], _ => true
  | _ :: _, [] => false
  | p :: ps, x :: xs => p == x && listIsLeading ps xs

/-- `label.startswith("Unnamed")` as a character-list check. -/
def strStartsWith (s pat : String) : Bool :=
  listIsLeading pat.data s.data

/-- Columns kept by line 93: every column whose label does not start with
`Unnamed`. -/
def keepCol (c : String) : Bool :=
  !(strStartsWith c ("Unnamed"))

/-- Lines 90-93 of `build_expiry_files`: the rows whose `Expiry_dt` equals
the chosen expiry, with the `Expiry_dt` helper column dropped and every
`Unnamed*` column dropped. -/
def select_expiry_data (df : DataFrame) (expiry_dt : Date) : DataFrame :=
  let data1 : DataFrame :=
    ⟨df.cols, df.rows.filter (fun r => getCell df.cols r ("Expiry_dt") == Cell.date expiry_dt)⟩
  let data2 := selectColsDF data1 (fun c => !(c == "Expiry_dt"))
  selectColsDF data2 keepCol

/-- `build_expiry_files(df, cfg, expiry_dt)` (lines 87-96). -/
def build_expiry_files (df : DataFrame) (cfg : IndexConfig) (expiry_dt : Date) :
    String × String :=
  let expiry_str := strUpper (formatDate expiry_dt)
  let filename := strLower cfg.name ++ "_" ++ expiry_str ++ ".txt"
  (filename, to_csv (select_expiry_data df expiry_dt))

/-- Python truthiness of an environment variable: `not v` is true exactly
when the variable is unset or the empty string. -/
def truthy : Option String → Bool
  | none => false
  | some s => !(s == "")

/-- The zip bundle name of line 114. -/
def zipName (today : Date) : String :=
  "EXPIRY_SYMBOLS_" ++ strUpper (formatDate today) ++ ".zip"

/-- The loop body of `main` (lines 117-131) for one config: `none` when the
config contributes no file (unresolved, or resolved off-day without the
override), otherwise the `(filename, CSV text)` pair written into the zip. -/
def processConfig (df_nfo df_bfo : DataFrame) (today : Date) (force : Bool)
    (cfg : IndexConfig) : Option (String × String) :=
  let df_src := if cfg.exchange == ("NFO") then df_nfo else df_bfo
  match get_expiry_for_index df_src cfg today with
  | none => none
  | some (expiry_dt, df_idx) =>
      if !force && !(expiry_dt == today) then none
      else some (build_expiry_files df_idx cfg expiry_dt)

/-- Outcome of one `main` run: the clean no-op exit of line 133-135, the
`RuntimeError` of line 138, or a delivery of the bundled files. -/
inductive RunResult where
  | noExpiryToday : RunResult
  | credentialsMissing : List (String × String) → RunResult
  | sent : List (String × String) → String → RunResult
deriving DecidableEq, Repr

/-- `main()` (lines 107-142) after the two downloads, with the module
globals (`TODAY`, `FORCE_EXPIRY_TODAY`, the credentials) passed
explicitly. -/
def mainRun (df_nfo df_bfo : DataFrame) (configs : List IndexConfig)
    (today : Date) (force : Bool) (botToken chatId : Option String) : RunResult :=
  let files := configs.filterMap (processConfig df_nfo df_bfo today force)
  if files.length == 0 then RunResult.noExpiryToday
  else if !(truthy botToken) || !(truthy chatId) then
    RunResult.credentialsMissing files
  else RunResult.sent files (zipName today)

/-! ### Derived notation used in the theorem statements -/

/-- The parse result of a row's `Expiry` cell. -/
def rowParsed (cols : List String) (r : List Cell) : Cell :=
  parseExpiryCell (getCell cols r ("Expiry"))

/-- The parsed expiry date of a row, when its `Expiry` cell parses. -/
def rowExpiry (cols : List String) (r : List Cell) : Option Date :=
  cellDate (rowParsed cols r)

/-- The parsed expiry dates, on or after `today`, of the
symbol/instrument-matching rows. -/
def futureDates (df : DataFrame) (cfg : IndexConfig) (today : Date) : List Date :=
  ((matchedRows df cfg).filterMap (fun r => rowExpiry df.cols r)).filter
    (fun d => dateLE today d)

/-- The column predicate of the claim about `matchingRows`: not the
transient `Expiry_dt` helper and not an `Unnamed*` artifact. -/
def keepFinal (c : String) : Bool :=
  !(c == "Expiry_dt") && keepCol c

/-- The matched, parse-augmented, NaT-dropped frame the resolver returns as
its second component. -/
def resolvedFrame (df : DataFrame) (cfg : IndexConfig) : DataFrame :=
  ⟨setCols df.cols ("Expiry_dt"),
   ((matchedRows df cfg).filter (fun r => !(rowParsed df.cols r == Cell.na))).map
     (fun r => augRow df.cols r)⟩

/-! ### Concrete scenario data (spec §8, end-to-end scenario 1) -/

/-- The columns of the sample instrument table. -/
def sampleCols : List String := ["Symbol", "Instrument", "Expiry"]

/-- The single sample row `{Symbol: NIFTY, Instrument: OPTIDX,
Expiry: 10-JUL-2025}`. -/
def sampleRow : List Cell :=
  [Cell.str "NIFTY", Cell.str "OPTIDX", Cell.str "10-JUL-2025"]

/-- The sample instrument table. -/
def sampleTable : DataFrame := ⟨sampleCols, [sampleRow]⟩

/-- The sample table with no rows at all. -/
def emptyTable : DataFrame := ⟨sampleCols, []⟩

/-- The sample NIFTY weekly config. -/
def sampleCfg : IndexConfig := ⟨"NIFTY", "NIFTY", "OPTIDX", "NFO", "WEEKLY"⟩

/-- Reference date 10-JUL-2025. -/
def refDay : Date := ⟨2025, 7, 10⟩


/-- The table with the rows whose `Expiry` does not parse removed (the
rows the resolver silently drops). -/
def dropUnparsable (df : DataFrame) : DataFrame :=
  ⟨df.cols, df.rows.filter (fun r => !(rowParsed df.cols r == Cell.na))⟩

/-- A table holding an unparsable `Expiry` value `N/A` alongside the valid
sample row (spec §8, end-to-end scenario 5). -/
def mixedTable : DataFrame :=
  ⟨sampleCols,
   [[Cell.str "NIFTY", Cell.str "OPTIDX", Cell.str "N/A"], sampleRow]⟩

/-- The resolver output frame on the sample table. -/
def sampleResolved : DataFrame :=
  ⟨["Symbol", "Instrument", "Expiry", "Expiry_dt"],
   [[Cell.str "NIFTY", Cell.str "OPTIDX", Cell.str "10-JUL-2025",
     Cell.date ⟨2025, 7, 10⟩]]⟩

/-! ### Order lemmas for `dateLE` -/

lemma dateLE_iff (a b : Date) :
    dateLE a b = true ↔
      (a.year < b.year ∨ (a.year = b.year ∧
        (a.month < b.month ∨ (a.month = b.month ∧ a.day ≤ b.day)))) := by
  simp [dateLE]

lemma dateLE_refl (a : Date) : dateLE a a = true := by
  rw [dateLE_iff]; omega

lemma dateLE_trans {a b c : Date} (h1 : dateLE a b = true)
    (h2 : dateLE b c = true) : dateLE a c = true := by
  rw [dateLE_iff] at h1 h2 ⊢; omega

lemma dateLE_total (a b : Date) : dateLE a b = true ∨ dateLE b a = true := by
  rw [dateLE_iff, dateLE_iff]; omega

lemma minD_le_left (a b : Date) : dateLE (minD a b) a = true := by
  unfold minD
  by_cases h : dateLE b a = true
  · simp [h]
  · simp [h, dateLE_refl]

lemma minD_le_right (a b : Date) : dateLE (minD a b) b = true := by
  unfold minD
  by_cases h : dateLE b a = true
  · simp [h, dateLE_refl]
  · rcases dateLE_total a b with h2 | h2
    · simp [h, h2]
    · exact absurd h2 h

lemma minD_cases (a b : Date) : minD a b = a ∨ minD a b = b := by
  unfold minD
  by_cases h : dateLE b a = true <;> simp [h]

lemma foldl_minD_le (ds : List Date) (d : Date) :
    dateLE (ds.foldl minD d) d = true ∧
      ∀ x ∈ ds, dateLE (ds.foldl minD d) x = true := by
  induction ds generalizing d with
  | nil => simp [dateLE_refl]
  | cons e ds ih =>
    have h := ih (minD d e)
    refine ⟨dateLE_trans h.1 (minD_le_left d e), ?_⟩
    intro x hx
    rcases List.mem_cons.mp hx with rfl | hx
    · exact dateLE_trans h.1 (minD_le_right d x)
    · exact h.2 x hx

lemma foldl_minD_mem (ds : List Date) (d : Date) :
    ds.foldl minD d = d ∨ ds.foldl minD d ∈ ds := by
  induction ds generalizing d with
  | nil => left; rfl
  | cons e ds ih =>
    rcases ih (minD d e) with h | h
    · rcases minD_cases d e with h2 | h2
      · left; simp only [List.foldl_cons]; rw [h, h2]
      · right; simp only [List.foldl_cons]; rw [h, h2]; exact List.mem_cons_self _ _
    · right; exact List.mem_cons_of_mem _ h

lemma minDateList_mem {l : List Date} {m : Date}
    (h : minDateList l = some m) : m ∈ l := by
  cases l with
  | nil => simp [minDateList] at h
  | cons d ds =>
    simp only [minDateList, Option.some.injEq] at h
    subst h
    rcases foldl_minD_mem ds d with h | h
    · rw [h]; exact List.mem_cons_self _ _
    · exact List.mem_cons_of_mem _ h

lemma minDateList_le {l : List Date} {m : Date}
    (h : minDateList l = some m) : ∀ x ∈ l, dateLE m x = true := by
  cases l with
  | nil => simp [minDateList] at h
  | cons d ds =>
    simp only [minDateList, Option.some.injEq] at h
    subst h
    intro x hx
    rcases List.mem_cons.mp hx with rfl | hx
    · exact (foldl_minD_le ds x).1
    · exact (foldl_minD_le ds d).2 x hx

/-! ### Cell and column lemmas -/

lemma getCell_setRow_self (cols : List String) (r : List Cell) (c : String)
    (v : Cell) (h : r.length = cols.length) :
    getCell (setCols cols c) (setRow cols r c v) c = v := by
  induction cols generalizing r with
  | nil =>
    cases r with
    | nil => simp [setCols, setRow, getCell]
    | cons x r => simp at h
  | cons col cols ih =>
    cases r with
    | nil => simp at h
    | cons x r =>
      simp only [List.length_cons, Nat.add_right_cancel_iff] at h
      by_cases hc : (col == c) = true
      · simp [setCols, setRow, getCell, hc]
      · simp only [setCols, setRow, hc, Bool.false_eq_true, if_false, getCell]
        exact ih r h

lemma setRow_length (cols : List String) (r : List Cell) (c : String)
    (v : Cell) (h : r.length = cols.length) :
    (setRow cols r c v).length = (setCols cols c).length := by
  induction cols generalizing r with
  | nil =>
    cases r with
    | nil => simp [setCols, setRow]
    | cons x r => simp at h
  | cons col cols ih =>
    cases r with
    | nil => simp at h
    | cons x r =>
      simp only [List.length_cons, Nat.add_right_cancel_iff] at h
      by_cases hc : (col == c) = true
      · simp [setCols, setRow, hc, h]
      · simp only [setCols, setRow, hc, Bool.false_eq_true, if_false,
          List.length_cons, Nat.add_right_cancel_iff]
        exact ih r h

lemma selectRow_setRow (cols : List String) (r : List Cell) (c : String)
    (v : Cell) (p : String → Bool) (hp : p c = false)
    (h : r.length = cols.length) :
    selectRow (setCols cols c) p (setRow cols r c v) = selectRow cols p r := by
  induction cols generalizing r with
  | nil =>
    cases r with
    | nil => simp [setCols, setRow, selectRow, hp]
    | cons x r => simp at h
  | cons col cols ih =>
    cases r with
    | nil => simp at h
    | cons x r =>
      simp only [List.length_cons, Nat.add_right_cancel_iff] at h
      by_cases hc : (col == c) = true
      · have hcol : col = c := by exact_mod_cast eq_of_beq hc
        simp [setCols, setRow, selectRow, hc, hcol, hp]
      · simp only [setCols, setRow, hc, Bool.false_eq_true, if_false, selectRow]
        by_cases hk : p col = true
        · simp [hk, ih r h]
        · simp [hk, ih r h]

lemma selectRow_selectRow (cols : List String) (p q : String → Bool)
    (r : List Cell) (h : r.length = cols.length) :
    selectRow (cols.filter p) q (selectRow cols p r) =
      selectRow cols (fun c => p c && q c) r := by
  induction cols generalizing r with
  | nil =>
    cases r with
    | nil => simp [selectRow]
    | cons x r => simp at h
  | cons col cols ih =>
    cases r with
    | nil => simp at h
    | cons x r =>
      simp only [List.length_cons, Nat.add_right_cancel_iff] at h
      by_cases hpc : p col = true
      · by_cases hqc : q col = true
        · simp [List.filter_cons, hpc, hqc, selectRow, ih r h]
        · simp [List.filter_cons, hpc, hqc, selectRow, ih r h]
      · simp [List.filter_cons, hpc, selectRow, ih r h]

lemma filter_setCols (cols : List String) (c : String) (p : String → Bool)
    (hp : p c = false) :
    (setCols cols c).filter p = cols.filter p := by
  induction cols with
  | nil => simp [setCols, List.filter_cons, hp]
  | cons col cols ih =>
    by_cases hc : (col == c) = true
    · simp [setCols, hc]
    · simp only [setCols, hc, Bool.false_eq_true, if_false, List.filter_cons]
      rw [ih]

/-! ### Pipeline lemmas: the augmented rows versus the original table -/

@[simp] lemma cellDateGE_na (t : Date) : cellDateGE Cell.na t = false := rfl

@[simp] lemma cellDateGE_date (d t : Date) :
    cellDateGE (Cell.date d) t = dateLE t d := rfl

@[simp] lemma cellDate_na : cellDate Cell.na = none := rfl

@[simp] lemma cellDate_date (d : Date) : cellDate (Cell.date d) = some d := rfl

lemma parseExpiryCell_na_or_date (c : Cell) :
    parseExpiryCell c = Cell.na ∨ ∃ d, parseExpiryCell c = Cell.date d := by
  cases c with
  | str s =>
    cases h : parseDate s with
    | none => left; simp [parseExpiryCell, h]
    | some d => right; exact ⟨d, by simp [parseExpiryCell, h]⟩
  | date d => left; rfl
  | na => left; rfl

lemma getCell_augRow (cols : List String) (r : List Cell)
    (hr : r.length = cols.length) :
    getCell (setCols cols ("Expiry_dt")) (augRow cols r) ("Expiry_dt") =
      rowParsed cols r :=
  getCell_setRow_self cols r _ _ hr

lemma rows3_eq (cols : List String) (l : List (List Cell))
    (hw : ∀ r ∈ l, r.length = cols.length) :
    (l.map (fun r => augRow cols r)).filter
        (fun x => !(getCell (setCols cols ("Expiry_dt")) x ("Expiry_dt") == Cell.na))
      = (l.filter (fun r => !(rowParsed cols r == Cell.na))).map
          (fun r => augRow cols r) := by
  induction l with
  | nil => simp
  | cons r l ih =>
    have hg := getCell_augRow cols r (hw r (List.mem_cons_self _ _))
    have ihh := ih (fun x hx => hw x (List.mem_cons_of_mem _ hx))
    simp only [List.map_cons, List.filter_cons, hg]
    by_cases hna : (rowParsed cols r == Cell.na) = true
    · simp [hna, ihh]
    · simp [hna, ihh]

lemma future_eq (cols : List String) (l : List (List Cell)) (today : Date)
    (hw : ∀ r ∈ l, r.length = cols.length) :
    ((l.filter (fun r => !(rowParsed cols r == Cell.na))).map
        (fun r => augRow cols r)).filter
        (fun x => cellDateGE (getCell (setCols cols ("Expiry_dt")) x ("Expiry_dt")) today)
      = (l.filter (fun r => cellDateGE (rowParsed cols r) today)).map
          (fun r => augRow cols r) := by
  induction l with
  | nil => simp
  | cons r l ih =>
    have hg := getCell_augRow cols r (hw r (List.mem_cons_self _ _))
    have ihh := ih (fun x hx => hw x (List.mem_cons_of_mem _ hx))
    rcases parseExpiryCell_na_or_date (getCell cols r ("Expiry")) with hp | ⟨d, hp⟩
    · have hp2 : rowParsed cols r = Cell.na := hp
      simp only [List.filter_cons, hp2, beq_self_eq_true, Bool.not_true,
        cellDateGE_na, Bool.false_eq_true, if_false]
      exact ihh
    · have hp2 : rowParsed cols r = Cell.date d := hp
      have hne : (Cell.date d == Cell.na) = false := by rfl
      simp only [List.filter_cons, hp2, hne, Bool.not_false, if_true,
        List.map_cons, hg, cellDateGE_date]
      by_cases hge : dateLE today d = true
      · simp only [hge, if_true, List.map_cons]
        rw [ihh]
      · simp only [hge, Bool.false_eq_true, if_false]
        exact ihh

lemma dates_eq (cols : List String) (l : List (List Cell)) (today : Date)
    (hw : ∀ r ∈ l, r.length = cols.length) :
    ((l.filter (fun r => cellDateGE (rowParsed cols r) today)).map
        (fun r => augRow cols r)).filterMap
        (fun x => cellDate (getCell (setCols cols ("Expiry_dt")) x ("Expiry_dt")))
      = (l.filterMap (fun r => rowExpiry cols r)).filter
          (fun d => dateLE today d) := by
  induction l with
  | nil => simp
  | cons r l ih =>
    have hg := getCell_augRow cols r (hw r (List.mem_cons_self _ _))
    have ihh := ih (fun x hx => hw x (List.mem_cons_of_mem _ hx))
    rcases parseExpiryCell_na_or_date (getCell cols r ("Expiry")) with hp | ⟨d, hp⟩
    · have hp2 : rowParsed cols r = Cell.na := hp
      have he : rowExpiry cols r = none := by
        unfold rowExpiry; rw [hp2]; rfl
      simp only [List.filter_cons, List.filterMap_cons, hp2, cellDateGE_na,
        Bool.false_eq_true, if_false, he]
      exact ihh
    · have hp2 : rowParsed cols r = Cell.date d := hp
      have he : rowExpiry cols r = some d := by
        unfold rowExpiry; rw [hp2]; rfl
      simp only [List.filter_cons, List.filterMap_cons, hp2, cellDateGE_date, he]
      by_cases hge : dateLE today d = true
      · simp only [hge, if_true, List.map_cons, List.filterMap_cons, hg, hp2,
          cellDate_date, List.filter_cons]
        rw [ihh]
      · simp only [hge, Bool.false_eq_true, if_false]
        exact ihh

lemma isEmpty_map {α β : Type} (f : α → β) (l : List α) :
    (l.map f).isEmpty = l.isEmpty := by
  cases l <;> rfl

lemma isEmpty_eq {α : Type} (l : List α) : l.isEmpty = true ↔ l = [] := by
  cases l <;> simp

lemma minDateList_eq_none (l : List Date) : minDateList l = none ↔ l = [] := by
  cases l <;> simp [minDateList]

lemma future_length_eq (cols : List String) (l : List (List Cell)) (today : Date) :
    (l.filter (fun r => cellDateGE (rowParsed cols r) today)).length =
      ((l.filterMap (fun r => rowExpiry cols r)).filter
        (fun d => dateLE today d)).length := by
  induction l with
  | nil => simp
  | cons r l ih =>
    rcases parseExpiryCell_na_or_date (getCell cols r ("Expiry")) with hp | ⟨d, hp⟩
    · have hp2 : rowParsed cols r = Cell.na := hp
      have he : rowExpiry cols r = none := by
        unfold rowExpiry; rw [hp2]; rfl
      simp only [List.filter_cons, List.filterMap_cons, hp2, cellDateGE_na,
        Bool.false_eq_true, if_false, he]
      exact ih
    · have hp2 : rowParsed cols r = Cell.date d := hp
      have he : rowExpiry cols r = some d := by
        unfold rowExpiry; rw [hp2]; rfl
      simp only [List.filter_cons, List.filterMap_cons, hp2, cellDateGE_date, he]
      by_cases hge : dateLE today d = true
      · simp only [hge, if_true, List.length_cons]
        rw [ih]
      · simp only [hge, Bool.false_eq_true, if_false]
        exact ih

lemma get_expiry_eq (df : DataFrame) (cfg : IndexConfig) (today : Date)
    (hw : df.Wf) :
    get_expiry_for_index df cfg today =
      if (matchedRows df cfg).isEmpty then none
      else
        match minDateList (futureDates df cfg today) with
        | none => none
        | some expiry => some (expiry, resolvedFrame df cfg) := by
  have hwm : ∀ r ∈ df.rows.filter (fun r => matchesCfg df.cols cfg r),
      r.length = df.cols.length :=
    fun r hr => hw r (List.mem_of_mem_filter hr)
  simp only [get_expiry_for_index, matchedRows, futureDates, resolvedFrame]
  have h1 : (("WEEKLY" : String) == "WEEKLY") = true := rfl
  have h2 : (("MONTHLY" : String) == "WEEKLY") = false := rfl
  by_cases hme : (df.rows.filter (fun r => matchesCfg df.cols cfg r)).isEmpty = true
  · simp only [hme, if_true]
  · simp only [hme, Bool.false_eq_true, if_false]
    by_cases hty : (cfg.type == ("WEEKLY")) = true
    all_goals
      simp only [hty, if_true, Bool.false_eq_true, if_false]
      rw [rows3_eq df.cols _ hwm, future_eq df.cols _ today hwm,
        dates_eq df.cols _ today hwm, isEmpty_map]
      by_cases hfe : ((df.rows.filter (fun r => matchesCfg df.cols cfg r)).filter
          (fun r => cellDateGE (rowParsed df.cols r) today)).isEmpty = true
      · have hnil := (isEmpty_eq _).mp hfe
        have hlen := future_length_eq df.cols
          (df.rows.filter (fun r => matchesCfg df.cols cfg r)) today
        rw [hnil] at hlen
        have hdn := List.length_eq_zero.mp hlen.symm
        rw [hdn]
        simp only [hfe, if_true, minDateList]
      · simp only [hfe, Bool.false_eq_true, if_false]

/-! ### Further list and frame lemmas -/

lemma listFilterSwap {α : Type} (p q : α → Bool) (l : List α) :
    (l.filter p).filter q = (l.filter q).filter p := by
  induction l with
  | nil => rfl
  | cons a l ih =>
    by_cases hp : p a = true <;> by_cases hq : q a = true <;>
      simp [List.filter_cons, hp, hq, ih]

lemma listFilterFilter {α : Type} (p q : α → Bool) (l : List α) :
    (l.filter p).filter q = l.filter (fun a => p a && q a) := by
  induction l with
  | nil => rfl
  | cons a l ih =>
    by_cases hp : p a = true <;> by_cases hq : q a = true <;>
      simp [List.filter_cons, hp, hq, ih]

lemma listMapCongr {α β : Type} (f g : α → β) (l : List α)
    (h : ∀ a ∈ l, f a = g a) : l.map f = l.map g := by
  induction l with
  | nil => rfl
  | cons a l ih =>
    simp only [List.map_cons, h a (List.mem_cons_self _ _)]
    rw [ih (fun x hx => h x (List.mem_cons_of_mem _ hx))]

lemma filter_na_eq_date (cols : List String) (l : List (List Cell)) (e : Date) :
    (l.filter (fun r => !(rowParsed cols r == Cell.na))).filter
        (fun r => rowParsed cols r == Cell.date e)
      = l.filter (fun r => rowParsed cols r == Cell.date e) := by
  induction l with
  | nil => rfl
  | cons r l ih =>
    rcases parseExpiryCell_na_or_date (getCell cols r ("Expiry")) with hp | ⟨d, hp⟩
    · have hp2 : rowParsed cols r = Cell.na := hp
      simp [List.filter_cons, hp2, ih]
    · have hp2 : rowParsed cols r = Cell.date d := hp
      by_cases he : (Cell.date d == Cell.date e) = true
      · simp [List.filter_cons, hp2, he, ih]
      · simp [List.filter_cons, hp2, he, ih]

lemma eqdate_filter_eq (cols : List String) (l : List (List Cell)) (e : Date)
    (hw : ∀ r ∈ l, r.length = cols.length) :
    (l.map (fun r => augRow cols r)).filter
        (fun x => getCell (setCols cols ("Expiry_dt")) x ("Expiry_dt") == Cell.date e)
      = (l.filter (fun r => rowParsed cols r == Cell.date e)).map
          (fun r => augRow cols r) := by
  induction l with
  | nil => rfl
  | cons r l ih =>
    have hg := getCell_augRow cols r (hw r (List.mem_cons_self _ _))
    have ihh := ih (fun x hx => hw x (List.mem_cons_of_mem _ hx))
    by_cases he : (rowParsed cols r == Cell.date e) = true
    · simp [List.filter_cons, List.map_cons, hg, he, ihh]
    · simp [List.filter_cons, List.map_cons, hg, he, ihh]

lemma filterMap_rowExpiry_notNa (cols : List String) (l : List (List Cell)) :
    (l.filter (fun r => !(rowParsed cols r == Cell.na))).filterMap
        (fun r => rowExpiry cols r)
      = l.filterMap (fun r => rowExpiry cols r) := by
  induction l with
  | nil => rfl
  | cons r l ih =>
    rcases parseExpiryCell_na_or_date (getCell cols r ("Expiry")) with hp | ⟨d, hp⟩
    · have hp2 : rowParsed cols r = Cell.na := hp
      have he : rowExpiry cols r = none := by
        unfold rowExpiry; rw [hp2]; rfl
      simp [List.filter_cons, List.filterMap_cons, hp2, he, ih]
    · have hp2 : rowParsed cols r = Cell.date d := hp
      have he : rowExpiry cols r = some d := by
        unfold rowExpiry; rw [hp2]; rfl
      simp [List.filter_cons, List.filterMap_cons, hp2, he, ih]

lemma listFilterIdem {α : Type} (p : α → Bool) (l : List α) :
    (l.filter p).filter p = l.filter p := by
  rw [listFilterFilter]
  induction l with
  | nil => rfl
  | cons a l ih =>
    by_cases hp : p a = true <;> simp [List.filter_cons, hp, ih]

lemma rowExpiry_eq_someBool (cols : List String) (r : List Cell) (e : Date) :
    (rowExpiry cols r == some e) = (rowParsed cols r == Cell.date e) := by
  rcases parseExpiryCell_na_or_date (getCell cols r ("Expiry")) with hp | ⟨d, hp⟩
  · have hp2 : rowParsed cols r = Cell.na := hp
    have he : rowExpiry cols r = none := by
      unfold rowExpiry; rw [hp2]; rfl
    rw [hp2, he]; rfl
  · have hp2 : rowParsed cols r = Cell.date d := hp
    have he : rowExpiry cols r = some d := by
      unfold rowExpiry; rw [hp2]; rfl
    rw [hp2, he]
    by_cases hde : d = e
    · subst hde; simp
    · have h1 : (some d == some e) = false := by
        simp [hde]
      have h2 : (Cell.date d == Cell.date e) = false := by
        simp [hde]
      rw [h1, h2]

lemma get_expiry_some_inv (df : DataFrame) (cfg : IndexConfig) (today : Date)
    (hw : df.Wf) {e : Date} {dfi : DataFrame}
    (h : get_expiry_for_index df cfg today = some (e, dfi)) :
    minDateList (futureDates df cfg today) = some e ∧
      dfi = resolvedFrame df cfg := by
  rw [get_expiry_eq df cfg today hw] at h
  by_cases hm : (matchedRows df cfg).isEmpty = true
  · rw [hm] at h; simp at h
  · simp only [hm, Bool.false_eq_true, if_false] at h
    cases hmin : minDateList (futureDates df cfg today) with
    | none => rw [hmin] at h; simp at h
    | some m =>
      rw [hmin] at h
      simp only [Option.some.injEq, Prod.mk.injEq] at h
      obtain ⟨he, hf⟩ := h
      exact ⟨by rw [he], hf.symm⟩

/-! ### Claim theorems -/

/-- C1: `resolve` first restricts the table to rows whose `Symbol` equals
`config.symbol` and whose `Instrument` equals `config.instrument`; if that
restriction is empty it returns NotFound; otherwise, among the remaining rows
whose parsed expiry is on or after the reference date, it returns the minimum
such date (a result is actually returned, and it is that minimum), and if no
such row exists it returns NotFound. -/
theorem resolve_restricts_and_selects_min_future (df : DataFrame)
    (cfg : IndexConfig) (today : Date) (hw : df.Wf) :
    (matchedRows df cfg = [] → get_expiry_for_index df cfg today = none) ∧
    (futureDates df cfg today = [] → get_expiry_for_index df cfg today = none) ∧
    (matchedRows df cfg ≠ [] → futureDates df cfg today ≠ [] →
      ∃ e dfi, get_expiry_for_index df cfg today = some (e, dfi) ∧
        e ∈ futureDates df cfg today ∧
          ∀ d ∈ futureDates df cfg today, dateLE e d = true) ∧
    (∀ e dfi, get_expiry_for_index df cfg today = some (e, dfi) →
      e ∈ futureDates df cfg today ∧
        ∀ d ∈ futureDates df cfg today, dateLE e d = true) := by
  refine ⟨?_, ?_, ?_, ?_⟩
  · intro h
    rw [get_expiry_eq df cfg today hw, h]
    rfl
  · intro h
    rw [get_expiry_eq df cfg today hw, h]
    simp [minDateList]
  · intro hm hf
    have hne : (matchedRows df cfg).isEmpty = false := by
      cases hcase : (matchedRows df cfg).isEmpty
      · rfl
      · exact absurd ((isEmpty_eq _).mp hcase) hm
    cases hmin : minDateList (futureDates df cfg today) with
    | none => exact absurd ((minDateList_eq_none _).mp hmin) hf
    | some m =>
      refine ⟨m, resolvedFrame df cfg, ?_, minDateList_mem hmin,
        minDateList_le hmin⟩
      rw [get_expiry_eq df cfg today hw]
      simp [hne, hmin]
  · intro e dfi h
    obtain ⟨hmin, _⟩ := get_expiry_some_inv df cfg today hw h
    exact ⟨minDateList_mem hmin, minDateList_le hmin⟩

theorem resolve_restricts_and_selects_min_future_witness :
    sampleTable.Wf ∧
      ((matchedRows sampleTable sampleCfg = [] →
          get_expiry_for_index sampleTable sampleCfg refDay = none) ∧
       (futureDates sampleTable sampleCfg refDay = [] →
          get_expiry_for_index sampleTable sampleCfg refDay = none) ∧
       (matchedRows sampleTable sampleCfg ≠ [] →
        futureDates sampleTable sampleCfg refDay ≠ [] →
          ∃ e dfi, get_expiry_for_index sampleTable sampleCfg refDay = some (e, dfi) ∧
            e ∈ futureDates sampleTable sampleCfg refDay ∧
              ∀ d ∈ futureDates sampleTable sampleCfg refDay, dateLE e d = true) ∧
       (∀ e dfi, get_expiry_for_index sampleTable sampleCfg refDay = some (e, dfi) →
          e ∈ futureDates sampleTable sampleCfg refDay ∧
            ∀ d ∈ futureDates sampleTable sampleCfg refDay, dateLE e d = true)) :=
  ⟨by decide,
   resolve_restricts_and_selects_min_future sampleTable sampleCfg refDay (by decide)⟩

/-- C5: for every config and source table, at most one selection is produced
per resolver call (a single optional result, so two successful reads agree),
and the selected expiry date is never strictly earlier than the reference
date. -/
theorem at_most_one_selection_never_past (df : DataFrame) (cfg : IndexConfig)
    (today : Date) (hw : df.Wf) :
    (∀ e₁ r₁ e₂ r₂, get_expiry_for_index df cfg today = some (e₁, r₁) →
      get_expiry_for_index df cfg today = some (e₂, r₂) → e₁ = e₂ ∧ r₁ = r₂) ∧
    (∀ e dfi, get_expiry_for_index df cfg today = some (e, dfi) →
      dateLE today e = true) := by
  refine ⟨?_, ?_⟩
  · intro e₁ r₁ e₂ r₂ h1 h2
    have h3 := Option.some.inj (h1.symm.trans h2)
    exact ⟨congrArg Prod.fst h3, congrArg Prod.snd h3⟩
  · intro e dfi h
    obtain ⟨hmin, _⟩ := get_expiry_some_inv df cfg today hw h
    have hm := minDateList_mem hmin
    unfold futureDates at hm
    exact (List.mem_filter.mp hm).2

theorem at_most_one_selection_never_past_witness :
    sampleTable.Wf ∧
      ((∀ e₁ r₁ e₂ r₂,
          get_expiry_for_index sampleTable sampleCfg refDay = some (e₁, r₁) →
          get_expiry_for_index sampleTable sampleCfg refDay = some (e₂, r₂) →
          e₁ = e₂ ∧ r₁ = r₂) ∧
       (∀ e dfi, get_expiry_for_index sampleTable sampleCfg refDay = some (e, dfi) →
          dateLE refDay e = true)) :=
  ⟨by decide, at_most_one_selection_never_past sampleTable sampleCfg refDay (by decide)⟩

/-- C6: the WEEKLY and MONTHLY cadence branches of the resolver are
behaviorally identical — changing only `config.type` between the two values
yields exactly the same result. -/
theorem weekly_monthly_branches_identical (df : DataFrame)
    (n s i ex : String) (today : Date) :
    get_expiry_for_index df ⟨n, s, i, ex, ("WEEKLY")⟩ today =
      get_expiry_for_index df ⟨n, s, i, ex, ("MONTHLY")⟩ today := by
  have h1 : (("WEEKLY" : String) == "WEEKLY") = true := rfl
  have h2 : (("MONTHLY" : String) == "WEEKLY") = false := rfl
  simp only [get_expiry_for_index, matchesCfg, h1, h2, if_true,
    Bool.false_eq_true, if_false]

/-- C10: the resolver is deterministic — equal inputs produce equal
outputs. -/
theorem resolve_deterministic (df₁ df₂ : DataFrame) (cfg₁ cfg₂ : IndexConfig)
    (t₁ t₂ : Date) (h1 : df₁ = df₂) (h2 : cfg₁ = cfg₂) (h3 : t₁ = t₂) :
    get_expiry_for_index df₁ cfg₁ t₁ = get_expiry_for_index df₂ cfg₂ t₂ := by
  subst h1; subst h2; subst h3; rfl

theorem resolve_deterministic_witness :
    get_expiry_for_index sampleTable sampleCfg refDay =
      get_expiry_for_index sampleTable sampleCfg refDay :=
  resolve_deterministic sampleTable sampleTable sampleCfg sampleCfg refDay refDay
    rfl rfl rfl

/-- C2: a resolved selection contributes a file to the day's export bundle
if and only if its expiry date equals the reference date or the operator
override flag is set; with the override on, every resolved selection is
included regardless of date equality. -/
theorem same_day_policy_iff (df_nfo df_bfo : DataFrame) (today : Date)
    (force : Bool) (cfg : IndexConfig) (p : String × String) :
    processConfig df_nfo df_bfo today force cfg = some p ↔
      ∃ e dfi,
        get_expiry_for_index (if cfg.exchange == ("NFO") then df_nfo else df_bfo)
            cfg today = some (e, dfi) ∧
          (force = true ∨ e = today) ∧ p = build_expiry_files dfi cfg e := by
  simp only [processConfig]
  cases hres : get_expiry_for_index
      (if cfg.exchange == ("NFO") then df_nfo else df_bfo) cfg today with
  | none => simp
  | some pr =>
    obtain ⟨e0, dfi0⟩ := pr
    simp only [Option.some.injEq, Prod.mk.injEq]
    by_cases hf : force = true
    · simp only [hf, Bool.not_true, Bool.false_and, Bool.false_eq_true, if_false,
        Option.some.injEq, true_or, true_and]
      constructor
      · intro h; exact ⟨e0, dfi0, ⟨rfl, rfl⟩, h.symm⟩
      · rintro ⟨e, dfi, ⟨he, hd⟩, hp⟩
        subst he; subst hd; exact hp.symm
    · by_cases he : e0 = today
      · subst he
        simp only [hf, beq_self_eq_true, Bool.not_true, Bool.and_false,
          Bool.false_eq_true, if_false, Option.some.injEq, false_or]
        constructor
        · intro h; exact ⟨e0, dfi0, ⟨rfl, rfl⟩, rfl, h.symm⟩
        · rintro ⟨e, dfi, ⟨he2, hd⟩, _, hp⟩
          subst he2; subst hd; exact hp.symm
      · have hb : (e0 == today) = false := by simp [he]
        simp [hf, he, hb]

theorem same_day_policy_iff_witness :
    processConfig sampleTable emptyTable refDay false sampleCfg =
        some ("nifty_10-JUL-2025.txt",
          "Symbol,Instrument,Expiry\nNIFTY,OPTIDX,10-JUL-2025\n") ↔
      ∃ e dfi,
        get_expiry_for_index
            (if sampleCfg.exchange == ("NFO") then sampleTable else emptyTable)
            sampleCfg refDay = some (e, dfi) ∧
          (false = true ∨ e = refDay) ∧
          ("nifty_10-JUL-2025.txt",
            "Symbol,Instrument,Expiry\nNIFTY,OPTIDX,10-JUL-2025\n") =
            build_expiry_files dfi sampleCfg e :=
  same_day_policy_iff sampleTable emptyTable refDay false sampleCfg
    ("nifty_10-JUL-2025.txt", "Symbol,Instrument,Expiry\nNIFTY,OPTIDX,10-JUL-2025\n")

/-- C7: a run that produces zero `(filename, CSV text)` pairs terminates as a
clean no-op without invoking the delivery collaborator and without raising
the missing-credentials error, even when credentials are absent. -/
theorem zero_files_clean_noop (df_nfo df_bfo : DataFrame)
    (configs : List IndexConfig) (today : Date) (force : Bool)
    (botToken chatId : Option String)
    (h : configs.filterMap (processConfig df_nfo df_bfo today force) = []) :
    mainRun df_nfo df_bfo configs today force botToken chatId =
      RunResult.noExpiryToday := by
  simp [mainRun, h]

theorem zero_files_clean_noop_witness :
    ([] : List IndexConfig).filterMap
        (processConfig sampleTable emptyTable refDay false) = [] ∧
      mainRun sampleTable emptyTable [] refDay false none none =
        RunResult.noExpiryToday :=
  ⟨rfl, zero_files_clean_noop sampleTable emptyTable [] refDay false none none rfl⟩

/-- C8: a run that produces at least one export artifact while the bot token
or the chat id is absent aborts with the missing-credentials error before
the delivery collaborator is ever invoked. -/
theorem missing_creds_abort (df_nfo df_bfo : DataFrame)
    (configs : List IndexConfig) (today : Date) (force : Bool)
    (botToken chatId : Option String)
    (h1 : configs.filterMap (processConfig df_nfo df_bfo today force) ≠ [])
    (h2 : truthy botToken = false ∨ truthy chatId = false) :
    mainRun df_nfo df_bfo configs today force botToken chatId =
      RunResult.credentialsMissing
        (configs.filterMap (processConfig df_nfo df_bfo today force)) := by
  have hlen : ((configs.filterMap
      (processConfig df_nfo df_bfo today force)).length == 0) = false := by
    simp [List.length_eq_zero, h1]
  rcases h2 with h2 | h2 <;> simp [mainRun, hlen, h2]

theorem missing_creds_abort_witness :
    ([sampleCfg].filterMap (processConfig sampleTable emptyTable refDay false) ≠ [] ∧
       (truthy none = false ∨ truthy (some "chat") = false)) ∧
      mainRun sampleTable emptyTable [sampleCfg] refDay false none (some "chat") =
        RunResult.credentialsMissing
          ([sampleCfg].filterMap (processConfig sampleTable emptyTable refDay false)) :=
  ⟨⟨by decide, Or.inl rfl⟩,
   missing_creds_abort sampleTable emptyTable [sampleCfg] refDay false none
     (some "chat") (by decide) (Or.inl rfl)⟩

/-- C9: every export file is named `<lowercased index name>_<expiry date,
dd-mmm-yyyy, uppercased>.txt` and holds the selected rows as CSV with the
header included and no index column; on the spec's end-to-end scenario the
NIFTY row of 10-JUL-2025 is exported as `nifty_10-JUL-2025.txt` with exactly
that row. -/
theorem export_filename_and_csv (df : DataFrame) (cfg : IndexConfig) (e : Date) :
    (build_expiry_files df cfg e).1 =
        strLower cfg.name ++ "_" ++ strUpper (formatDate e) ++ ".txt" ∧
    (build_expiry_files df cfg e).2 = to_csv (select_expiry_data df e) ∧
    mainRun sampleTable emptyTable [sampleCfg] refDay false (some "token")
        (some "chat") =
      RunResult.sent
        [("nifty_10-JUL-2025.txt",
          "Symbol,Instrument,Expiry\nNIFTY,OPTIDX,10-JUL-2025\n")]
        "EXPIRY_SYMBOLS_10-JUL-2025.zip" := by
  refine ⟨rfl, rfl, ?_⟩
  decide

lemma listFilterCongr {α : Type} (p q : α → Bool) (l : List α)
    (h : ∀ a ∈ l, p a = q a) : l.filter p = l.filter q := by
  induction l with
  | nil => rfl
  | cons a l ih =>
    have ha := h a (List.mem_cons_self _ _)
    have ihh := ih (fun x hx => h x (List.mem_cons_of_mem _ hx))
    by_cases hp : p a = true
    · simp [List.filter_cons, hp, ha ▸ hp, ihh]
    · have hq : q a = false := by rw [← ha]; exact Bool.of_not_eq_true hp
      simp [List.filter_cons, hp, hq, ihh]

/-- C3: for every successful resolution with expiry `e`, the rows serialized
by `build_expiry_files` are exactly the symbol/instrument-matching rows whose
parsed expiry equals `e` — none omitted, none with a different or unparsable
expiry — with the transient `Expiry_dt` helper column removed and every
`Unnamed*` artifact column removed. -/
theorem matching_rows_exact (df : DataFrame) (cfg : IndexConfig) (today : Date)
    (hw : df.Wf) (e : Date) (dfi : DataFrame)
    (h : get_expiry_for_index df cfg today = some (e, dfi)) :
    select_expiry_data dfi e =
      ⟨df.cols.filter keepFinal,
       ((matchedRows df cfg).filter (fun r => rowExpiry df.cols r == some e)).map
         (fun r => selectRow df.cols keepFinal r)⟩ := by
  obtain ⟨-, hframe⟩ := get_expiry_some_inv df cfg today hw h
  subst hframe
  have hwm : ∀ r ∈ matchedRows df cfg, r.length = df.cols.length :=
    fun r hr => hw r (List.mem_of_mem_filter hr)
  have hwmf : ∀ r ∈ (matchedRows df cfg).filter
      (fun r => !(rowParsed df.cols r == Cell.na)), r.length = df.cols.length :=
    fun r hr => hwm r (List.mem_of_mem_filter hr)
  simp only [select_expiry_data, resolvedFrame, selectColsDF]
  rw [eqdate_filter_eq df.cols _ e hwmf, filter_na_eq_date df.cols _ e,
    filter_setCols df.cols ("Expiry_dt") (fun c => !(c == "Expiry_dt")) rfl,
    List.map_map, List.map_map, listFilterFilter]
  rw [listFilterCongr (fun r => rowParsed df.cols r == Cell.date e)
    (fun r => rowExpiry df.cols r == some e) (matchedRows df cfg)
    (fun r _ => (rowExpiry_eq_someBool df.cols r e).symm)]
  congr 1
  apply listMapCongr
  intro r hr
  have hr' : r.length = df.cols.length :=
    hwm r (List.mem_of_mem_filter hr)
  show selectRow (df.cols.filter (fun c => !(c == "Expiry_dt"))) keepCol
      (selectRow (setCols df.cols ("Expiry_dt")) (fun c => !(c == "Expiry_dt"))
        (setRow df.cols r ("Expiry_dt")
          (parseExpiryCell (getCell df.cols r ("Expiry"))))) =
    selectRow df.cols keepFinal r
  rw [selectRow_setRow df.cols r ("Expiry_dt")
    (parseExpiryCell (getCell df.cols r ("Expiry")))
    (fun c => !(c == "Expiry_dt")) rfl hr']
  exact selectRow_selectRow df.cols (fun c => !(c == "Expiry_dt")) keepCol r hr'

theorem matching_rows_exact_witness :
    (sampleTable.Wf ∧
       get_expiry_for_index sampleTable sampleCfg refDay =
         some (refDay, sampleResolved)) ∧
      select_expiry_data sampleResolved refDay =
        ⟨sampleTable.cols.filter keepFinal,
         ((matchedRows sampleTable sampleCfg).filter
             (fun r => rowExpiry sampleTable.cols r == some refDay)).map
           (fun r => selectRow sampleTable.cols keepFinal r)⟩ :=
  ⟨⟨by decide, by decide⟩,
   matching_rows_exact sampleTable sampleCfg refDay (by decide) refDay
     sampleResolved (by decide)⟩

/-- C4: rows whose `Expiry` does not parse are dropped silently — removing
them from the table beforehand changes nothing, they never reach the
resolved frame (so never `matchingRows`), and resolution returns NotFound
rather than raising on any well-formed-but-empty table. -/
theorem unparsable_rows_never_influence (df : DataFrame) (cfg : IndexConfig)
    (today : Date) (hw : df.Wf) :
    get_expiry_for_index (dropUnparsable df) cfg today =
        get_expiry_for_index df cfg today ∧
    (∀ e dfi, get_expiry_for_index df cfg today = some (e, dfi) →
      ∀ x ∈ dfi.rows, ¬(getCell dfi.cols x ("Expiry_dt") = Cell.na)) ∧
    (∀ cols, get_expiry_for_index ⟨cols, []⟩ cfg today = none) := by
  have hw' : (dropUnparsable df).Wf :=
    fun r hr => hw r (List.mem_of_mem_filter hr)
  have hwm : ∀ r ∈ matchedRows df cfg, r.length = df.cols.length :=
    fun r hr => hw r (List.mem_of_mem_filter hr)
  have hmr : matchedRows (dropUnparsable df) cfg =
      (matchedRows df cfg).filter (fun r => !(rowParsed df.cols r == Cell.na)) := by
    simp only [matchedRows, dropUnparsable]
    exact listFilterSwap _ _ df.rows
  refine ⟨?_, ?_, ?_⟩
  · rw [get_expiry_eq df cfg today hw,
      get_expiry_eq (dropUnparsable df) cfg today hw']
    have hc : (dropUnparsable df).cols = df.cols := rfl
    have hfd : futureDates (dropUnparsable df) cfg today =
        futureDates df cfg today := by
      simp only [futureDates, hc, hmr]
      rw [filterMap_rowExpiry_notNa]
    have hrf : resolvedFrame (dropUnparsable df) cfg = resolvedFrame df cfg := by
      simp only [resolvedFrame, hc, hmr]
      rw [listFilterIdem]
    rw [hmr, hfd, hrf]
    by_cases h1 : (matchedRows df cfg).isEmpty = true
    · have hnil := (isEmpty_eq _).mp h1
      rw [hnil]
      rfl
    · simp only [h1, Bool.false_eq_true, if_false]
      by_cases h2 : ((matchedRows df cfg).filter
          (fun r => !(rowParsed df.cols r == Cell.na))).isEmpty = true
      · have hn2 := (isEmpty_eq _).mp h2
        have hfdnil : futureDates df cfg today = [] := by
          simp only [futureDates]
          rw [← filterMap_rowExpiry_notNa df.cols (matchedRows df cfg), hn2]
          rfl
        rw [hfdnil]
        simp [h2, minDateList]
      · simp only [h2, Bool.false_eq_true, if_false]
  · intro e dfi h
    obtain ⟨-, hframe⟩ := get_expiry_some_inv df cfg today hw h
    subst hframe
    intro x hx hna
    obtain ⟨r, hr, rfl⟩ := List.mem_map.mp hx
    have hr0 : r ∈ matchedRows df cfg := List.mem_of_mem_filter hr
    have hlen : r.length = df.cols.length := hwm r hr0
    have hmem := (List.mem_filter.mp hr).2
    rw [show (resolvedFrame df cfg).cols = setCols df.cols ("Expiry_dt") from rfl,
      getCell_augRow df.cols r hlen] at hna
    rw [hna] at hmem
    simp at hmem
  · intro cols
    rfl

theorem unparsable_rows_never_influence_witness :
    mixedTable.Wf ∧
      (get_expiry_for_index (dropUnparsable mixedTable) sampleCfg refDay =
          get_expiry_for_index mixedTable sampleCfg refDay ∧
       (∀ e dfi, get_expiry_for_index mixedTable sampleCfg refDay = some (e, dfi) →
          ∀ x ∈ dfi.rows, ¬(getCell dfi.cols x ("Expiry_dt") = Cell.na)) ∧
       (∀ cols, get_expiry_for_index ⟨cols, []⟩ sampleCfg refDay = none)) :=
  ⟨by decide,
   unparsable_rows_never_influence mixedTable sampleCfg refDay (by decide)⟩
